import Mathlib

/-!
Verification of the fake-discord worker: a shallow embedding of the
tenant state store and the request handlers in src/worker/discord-api.ts,
src/worker/index.ts and src/worker/test-control.ts, with proofs of the
spec's testable properties.

The database is modelled as lists of rows, one list per table, and every
handler as a pure function from the database (plus the request data and
the values the runtime supplies: fresh tokens, timestamps) to a response
and an updated database, mirroring the SQL statement by statement.
-/

namespace FakeDiscord

/-- JSON literal values, the payload fragments the handlers inspect.
Request bodies are JSON objects modelled as association lists of fields. -/
inductive JLit where
  | jnull
  | jbool (b : Bool)
  | jint (n : Int)
  | jstr (s : String)
deriving DecidableEq, Repr

/-- A JSON object body: field name to literal value, first binding wins. -/
def Body := List (String × JLit)
deriving DecidableEq, Repr

/-- Field access on a JSON object, mirroring JS property access:
absent fields read as undefined (none). -/
def getField (body : Body) (key : String) : Option JLit :=
  match List.find? (fun kv => kv.fst == key) body with
  | some kv => some kv.snd
  | none => none

/-- JavaScript truthiness of a JSON literal. -/
def JLit.truthy : JLit → Bool
  | .jnull => false
  | .jbool b => b
  | .jint n => n != 0
  | .jstr s => s != ""

/-- The JS expression body.content || "" used by the message, edit,
interaction-response and followup handlers when building the response. -/
def contentOrEmpty (body : Body) : JLit :=
  match getField body "content" with
  | some v => if v.truthy then v else JLit.jstr ""
  | none => JLit.jstr ""

/-- Modelled from the spec: the value content: body.content ?? "" that
section 4.3 of the spec promises for the send-message response (nullish
coalescing: only null or an absent field fall back to the empty string).
The handler itself is not written this way; this definition exists to be
compared with contentOrEmpty. -/
def contentCoalesceSpec (body : Body) : JLit :=
  match getField body "content" with
  | some JLit.jnull => JLit.jstr ""
  | some v => v
  | none => JLit.jstr ""

/-- Row of the tenants table. -/
structure TenantRow where
  id : String
  bot_token : String
  client_id : String
  client_secret : String
  public_key : String
  private_key : String
  next_id : Nat
  created_at : String
deriving DecidableEq, Repr

/-- Row of the guilds table. -/
structure GuildRow where
  tenant_id : String
  id : String
  name : String
deriving DecidableEq, Repr

/-- Row of the channels table. -/
structure ChannelRow where
  tenant_id : String
  guild_id : String
  id : String
  name : String
deriving DecidableEq, Repr

/-- Row of the auth_codes table. -/
structure AuthCodeRow where
  code : String
  tenant_id : String
  guild_id : String
  redirect_uri : String
deriving DecidableEq, Repr

/-- Row of the access_tokens table. -/
structure AccessTokenRow where
  token : String
  tenant_id : String
deriving DecidableEq, Repr

/-- Row of the messages table; the payload column stores the whole
JSON request body. -/
structure MessageRow where
  tenant_id : String
  id : String
  channel_id : String
  payload : Body
  created_at : String
deriving DecidableEq, Repr

/-- Row of the message_edits table (autoincrement id left implicit:
rows are kept in insertion order). -/
structure MessageEditRow where
  tenant_id : String
  message_id : String
  payload : Body
  edited_at : String
deriving DecidableEq, Repr

/-- Row of the reactions table. -/
structure ReactionRow where
  tenant_id : String
  channel_id : String
  message_id : String
  emoji : String
  created_at : String
deriving DecidableEq, Repr

/-- Row of the interaction_responses table. -/
structure InteractionResponseRow where
  tenant_id : String
  interaction_token : String
  response_id : String
  payload : Body
  responded_at : String
deriving DecidableEq, Repr

/-- Row of the followups table. -/
structure FollowupRow where
  tenant_id : String
  id : String
  interaction_token : String
  payload : Body
  created_at : String
deriving DecidableEq, Repr

/-- Row of the registered_commands table. -/
structure RegisteredCommandRow where
  tenant_id : String
  id : String
  guild_id : String
  payload : Body
  registered_at : String
deriving DecidableEq, Repr

/-- Row of the audit_logs table (autoincrement id left implicit:
rows are kept in insertion order). -/
structure AuditLogRow where
  tenant_id : Option String
  method : String
  url : String
  request_body : Option String
  response_status : Nat
  response_body : Option String
  created_at : String
deriving DecidableEq, Repr

/-- The whole database: one list of rows per table, in insertion order. -/
structure DB where
  tenants : List TenantRow
  guilds : List GuildRow
  channels : List ChannelRow
  auth_codes : List AuthCodeRow
  access_tokens : List AccessTokenRow
  messages : List MessageRow
  message_edits : List MessageEditRow
  reactions : List ReactionRow
  interaction_responses : List InteractionResponseRow
  followups : List FollowupRow
  registered_commands : List RegisteredCommandRow
  audit_logs : List AuditLogRow
deriving DecidableEq, Repr

/-- SELECT * FROM tenants WHERE id = ? (first row). -/
def findTenantById (db : DB) (tid : String) : Option TenantRow :=
  db.tenants.find? (fun t => t.id == tid)

/-- SELECT * FROM tenants WHERE client_id = ? (first row). -/
def findTenantByClientId (db : DB) (cid : String) : Option TenantRow :=
  db.tenants.find? (fun t => t.client_id == cid)

/-- UPDATE tenants SET next_id = next_id + 1 WHERE id = ?. -/
def bumpTenant (db : DB) (tid : String) : DB :=
  { db with tenants :=
      db.tenants.map (fun u => if u.id == tid then { u with next_id := u.next_id + 1 } else u) }

/-- The helper generateId(tenantId, prefix): an atomic
UPDATE tenants SET next_id = next_id + 1 WHERE id = ? RETURNING next_id,
then the string made of the prefix and the post-increment value minus one.
Returns none when no tenant row matched (the JS code would throw). -/
def generateId (db : DB) (tid pre : String) : Option (String × DB) :=
  match findTenantById (bumpTenant db tid) tid with
  | none => none
  | some t => some (pre ++ "-" ++ toString (t.next_id - 1), bumpTenant db tid)

/-- Predicate of the WHERE clause code = ? AND tenant_id = ? on auth_codes. -/
def acMatches (code tid : String) (r : AuthCodeRow) : Bool :=
  r.code == code && r.tenant_id == tid

/-- Result of POST /api/v10/oauth2/token. -/
inductive TokenResult where
  | invalidClient
  | invalidGrant
  | redirectMismatch
  | success (accessToken guildId guildName : String)
deriving DecidableEq, Repr

/-- The token-exchange handler (POST /api/v10/oauth2/token): resolve the
tenant by client_id, check the secret, SELECT the auth code for
(code, tenant), DELETE it, check meta.changes, then validate the stored
redirect_uri against the submitted one, and finally insert a fresh access
token. The fresh token string the runtime would generate is a parameter. -/
def tokenExchange (db : DB) (clientId clientSecret code redirectUri newToken : String) :
    TokenResult × DB :=
  match findTenantByClientId db clientId with
  | none => (TokenResult.invalidClient, db)
  | some t =>
    if t.client_secret != clientSecret then (TokenResult.invalidClient, db)
    else
      match db.auth_codes.find? (acMatches code t.id) with
      | none => (TokenResult.invalidGrant, db)
      | some ac =>
        let changes := (db.auth_codes.filter (acMatches code t.id)).length
        let db1 := { db with auth_codes := db.auth_codes.filter (fun r => !acMatches code t.id r) }
        if changes == 0 then (TokenResult.invalidGrant, db1)
        else if ac.redirect_uri != "" && ac.redirect_uri != redirectUri then
          (TokenResult.redirectMismatch, db1)
        else
          let db2 := { db1 with access_tokens := db1.access_tokens ++ [{ token := newToken, tenant_id := t.id }] }
          let gname :=
            match db.guilds.find? (fun g => g.tenant_id == t.id && g.id == ac.guild_id) with
            | some g => g.name
            | none => ""
          (TokenResult.success newToken ac.guild_id gname, db2)

/-- Response of the send-message handler. -/
structure MsgResp where
  id : String
  channel_id : String
  content : JLit
deriving DecidableEq, Repr

/-- The send-message handler (POST /api/v10/channels/:channelId/messages)
after bot authentication: validate the channel, generate a fresh msg id,
INSERT the whole body as payload, and answer with
id, channel_id and body.content || "". none covers the 404
Unknown Channel reply (and a missing tenant row, which cannot occur once
authentication resolved the tenant). -/
def sendMessage (db : DB) (tid ch : String) (body : Body) (now : String) :
    Option (MsgResp × DB) :=
  match db.channels.find? (fun x => x.tenant_id == tid && x.id == ch) with
  | none => none
  | some _ =>
    match generateId db tid "msg" with
    | none => none
    | some (mid, db1) =>
      some ({ id := mid, channel_id := ch, content := contentOrEmpty body },
        { db1 with messages :=
            db1.messages ++ [{ tenant_id := tid, id := mid, channel_id := ch, payload := body, created_at := now }] })

/-- Predicate of the WHERE clause tenant_id = ? AND id = ? AND channel_id = ?
used by both statements of the edit-message batch. -/
def msgMatches (tid ch mid : String) (m : MessageRow) : Bool :=
  m.tenant_id == tid && m.id == mid && m.channel_id == ch

/-- Result of PATCH /api/v10/channels/:channelId/messages/:messageId. -/
inductive EditResult where
  | unknownMessage
  | edited (resp : MsgResp)
deriving DecidableEq, Repr

/-- The edit-message handler after bot authentication: one atomic batch of
INSERT INTO message_edits ... SELECT ... FROM messages WHERE ... (the
pre-image) and UPDATE messages SET payload = ? WHERE ...; then 404 when the
UPDATE touched zero rows. Both statements read the messages table as it
was when the batch started. -/
def editMessage (db : DB) (tid ch mid : String) (body : Body) (now : String) :
    EditResult × DB :=
  let pre := db.messages.filter (msgMatches tid ch mid)
  let preImage := pre.map (fun m =>
    { tenant_id := m.tenant_id, message_id := m.id, payload := m.payload,
      edited_at := now : MessageEditRow })
  let db1 := { db with message_edits := db.message_edits ++ preImage }
  let db2 := { db1 with
    messages := db1.messages.map (fun m =>
      if msgMatches tid ch mid m then { m with payload := body } else m) }
  if pre.length == 0 then (EditResult.unknownMessage, db2)
  else (EditResult.edited { id := mid, channel_id := ch, content := contentOrEmpty body }, db2)

/-- Predicate of the WHERE clause tenant_id = ? AND interaction_token = ?
(the conflict target of the upsert). -/
def respMatches (tid token : String) (r : InteractionResponseRow) : Bool :=
  r.tenant_id == tid && r.interaction_token == token

/-- INSERT INTO interaction_responses ... ON CONFLICT(tenant_id,
interaction_token) DO UPDATE SET response_id, payload, responded_at. -/
def upsertInteractionResponse (db : DB) (tid token respId : String) (body : Body) (now : String) : DB :=
  if db.interaction_responses.any (respMatches tid token) then
    { db with
      interaction_responses := db.interaction_responses.map (fun r =>
        if respMatches tid token r then
          { r with response_id := respId, payload := body, responded_at := now }
        else r) }
  else
    { db with
      interaction_responses := db.interaction_responses ++
        [{ tenant_id := tid, interaction_token := token,
           response_id := respId, payload := body, responded_at := now }] }

/-- The edit-interaction-response handler
(PATCH /api/v10/webhooks/:clientId/:interactionToken/messages/@original)
after the tenant was resolved by client id: generate a fresh resp id and
upsert the row for (tenant, interactionToken). -/
def editInteractionResponse (db : DB) (tid token : String) (body : Body) (now : String) :
    Option (String × DB) :=
  match generateId db tid "resp" with
  | none => none
  | some (rid, db1) => some (rid, upsertInteractionResponse db1 tid token rid body now)

/-- Thread generateId(tenant, "cmd") through the request's command list,
as the for-loop of the bulk-overwrite handler does before issuing the
batch; pairs each command body with its fresh id. -/
def genIds (db : DB) (tid : String) : List Body → Option (List (String × Body) × DB)
  | [] => some ([], db)
  | c :: cs =>
    match generateId db tid "cmd" with
    | none => none
    | some (i, db1) =>
      match genIds db1 tid cs with
      | none => none
      | some (rest, db2) => some ((i, c) :: rest, db2)

/-- Predicate of the WHERE clause tenant_id = ? AND guild_id = ? on the
registered_commands table. -/
def cmdMatches (tid gid : String) (r : RegisteredCommandRow) : Bool :=
  r.tenant_id == tid && r.guild_id == gid

/-- One INSERT INTO registered_commands row of the bulk-overwrite batch:
the fresh id paired with the command body, under the request's tenant,
guild and timestamp. -/
def cmdRow (tid gid now : String) (p : String × Body) : RegisteredCommandRow :=
  { tenant_id := tid, id := p.1, guild_id := gid, payload := p.2, registered_at := now }

/-- The bulk-overwrite handler
(PUT /api/v10/applications/:clientId/guilds/:guildId/commands) after bot
authentication, the client_id cross-check and the guild check: generate
one fresh cmd id per command, then run one batch holding
DELETE FROM registered_commands WHERE tenant_id = ? AND guild_id = ?
followed by one INSERT per command (replaceCommands is that batch).
Returns the id/body pairs. -/
def replaceCommands (db : DB) (tid gid now : String) (pairs : List (String × Body)) : DB :=
  { db with
    registered_commands := db.registered_commands.filter (fun r => !cmdMatches tid gid r)
      ++ pairs.map (cmdRow tid gid now) }

def bulkOverwriteCommands (db : DB) (tid gid : String) (cmds : List Body) (now : String) :
    Option (List (String × Body) × DB) :=
  match genIds db tid cmds with
  | none => none
  | some (pairs, db1) => some (pairs, replaceCommands db1 tid gid now pairs)

/-- The reset handler (POST /_test/:tenantId/reset): one batch of DELETEs
for followups, interaction_responses, registered_commands, reactions,
message_edits, messages, access_tokens and auth_codes plus
UPDATE tenants SET next_id = 1. The handler issues no statement against
audit_logs, guilds or channels. none is the 404 Tenant not found reply. -/
def resetTenant (db : DB) (tid : String) : Option DB :=
  match findTenantById db tid with
  | none => none
  | some _ => some
    { db with
      followups := db.followups.filter (fun r => r.tenant_id != tid),
      interaction_responses := db.interaction_responses.filter (fun r => r.tenant_id != tid),
      registered_commands := db.registered_commands.filter (fun r => r.tenant_id != tid),
      reactions := db.reactions.filter (fun r => r.tenant_id != tid),
      message_edits := db.message_edits.filter (fun r => r.tenant_id != tid),
      messages := db.messages.filter (fun r => r.tenant_id != tid),
      access_tokens := db.access_tokens.filter (fun r => r.tenant_id != tid),
      auth_codes := db.auth_codes.filter (fun r => r.tenant_id != tid),
      tenants := db.tenants.map (fun u => if u.id == tid then { u with next_id := 1 } else u) }

/-- The delete-tenant handler (DELETE /_test/tenants/:tenantId): one batch
of DELETEs for followups, interaction_responses, registered_commands,
reactions, message_edits, messages, access_tokens, auth_codes, channels,
guilds and the tenants row itself. The handler issues no statement
against audit_logs. none is the 404 Tenant not found reply. -/
def deleteTenantRoute (db : DB) (tid : String) : Option DB :=
  match findTenantById db tid with
  | none => none
  | some _ => some
    { db with
      followups := db.followups.filter (fun r => r.tenant_id != tid),
      interaction_responses := db.interaction_responses.filter (fun r => r.tenant_id != tid),
      registered_commands := db.registered_commands.filter (fun r => r.tenant_id != tid),
      reactions := db.reactions.filter (fun r => r.tenant_id != tid),
      message_edits := db.message_edits.filter (fun r => r.tenant_id != tid),
      messages := db.messages.filter (fun r => r.tenant_id != tid),
      access_tokens := db.access_tokens.filter (fun r => r.tenant_id != tid),
      auth_codes := db.auth_codes.filter (fun r => r.tenant_id != tid),
      channels := db.channels.filter (fun r => r.tenant_id != tid),
      guilds := db.guilds.filter (fun r => r.tenant_id != tid),
      tenants := db.tenants.filter (fun u => u.id != tid) }

/-- The JS test path.endsWith("/audit-logs") of the middleware, modelled
as a suffix test on the character sequences of the two strings. -/
def strEndsWith (s t : String) : Bool :=
  t.data.isSuffixOf s.data

/-- What the audit middleware sees of a request. -/
structure AuditReq where
  method : String
  url : String
  path : String
  request_body : Option String
deriving DecidableEq, Repr

/-- What the audit middleware sees after the downstream handler ran: the
response status and body, and the tenant id the handler may have put into
the request context. -/
structure HandlerOut where
  status : Nat
  body : Option String
  tenant : Option String
deriving DecidableEq, Repr

/-- The audit-logging middleware (app.use in index.ts): requests whose
path ends in /audit-logs are passed through without logging; for the rest
the request body is captured for non-GET/HEAD methods, the handler runs,
and one audit_logs row is inserted afterwards inside a try/catch whose
catch block does nothing. The logFails flag stands for an exception
thrown anywhere inside that try block; the handler's response is returned
unchanged in every case. -/
def auditMiddleware (db : DB) (req : AuditReq) (out : HandlerOut) (now : String)
    (logFails : Bool) : HandlerOut × DB :=
  if strEndsWith req.path "/audit-logs" then (out, db)
  else
    let requestBody := if req.method == "GET" || req.method == "HEAD" then none else req.request_body
    if logFails then (out, db)
    else (out, { db with audit_logs := db.audit_logs ++
      [{ tenant_id := out.tenant, method := req.method, url := req.url,
         request_body := requestBody, response_status := out.status,
         response_body := out.body, created_at := now }] })

/-! Generic list lemmas used to reason about the row lists. -/

/-- find? over a map that rewrites exactly the rows the predicate selects,
without changing how the predicate evaluates on them, returns the rewritten
first hit. This is UPDATE versus SELECT-first on the same WHERE clause. -/
theorem find?_map_ite {α : Type} (p : α → Bool) (f : α → α)
    (hp : ∀ a, p (f a) = p a) :
    ∀ (l : List α) (t : α), l.find? p = some t →
      (l.map (fun a => if p a then f a else a)).find? p = some (f t) := by
  intro l
  induction l with
  | nil => intro t h; simp [List.find?] at h
  | cons a l ih =>
    intro t h
    by_cases hpa : p a = true
    · rw [List.find?_cons_of_pos _ hpa] at h
      cases h
      simp only [List.map_cons, hpa, if_true]
      exact List.find?_cons_of_pos _ (by rw [hp]; exact hpa)
    · rw [List.find?_cons_of_neg _ hpa] at h
      simp only [List.map_cons, if_neg hpa]
      rw [List.find?_cons_of_neg _ hpa]
      exact ih t h

/-- A map that neither changes how the predicate evaluates nor rewrites any
row satisfying it leaves find? untouched: an UPDATE whose WHERE clause is
disjoint from the SELECT's. -/
theorem find?_map_invariant {α : Type} (p : α → Bool) (g : α → α)
    (hp : ∀ a, p (g a) = p a) (hg : ∀ a, p a = true → g a = a) (l : List α) :
    (l.map g).find? p = l.find? p := by
  induction l with
  | nil => rfl
  | cons a l ih =>
    by_cases hpa : p a = true
    · rw [List.map_cons, hg a hpa, List.find?_cons_of_pos _ hpa,
        List.find?_cons_of_pos _ hpa]
    · rw [List.map_cons, List.find?_cons_of_neg _ (by rw [hp]; exact hpa),
        List.find?_cons_of_neg _ hpa]
      exact ih

/-- Appending one row the predicate rejects does not change find?. -/
theorem find?_append_singleton_neg {α : Type} (p : α → Bool) (l : List α) (x : α)
    (hx : ¬p x = true) : (l ++ [x]).find? p = l.find? p := by
  induction l with
  | nil => simp [List.find?, Bool.eq_false_iff.mpr hx]
  | cons a l ih =>
    by_cases hpa : p a = true
    · rw [List.cons_append, List.find?_cons_of_pos _ hpa, List.find?_cons_of_pos _ hpa]
    · rw [List.cons_append, List.find?_cons_of_neg _ hpa, List.find?_cons_of_neg _ hpa]
      exact ih

/-- Appending one row the predicate accepts to a list where nothing matched
makes that row the find? result. -/
theorem find?_append_singleton_pos {α : Type} (p : α → Bool) (l : List α) (x : α)
    (hl : l.find? p = none) (hx : p x = true) : (l ++ [x]).find? p = some x := by
  induction l with
  | nil => simp [List.find?, hx]
  | cons a l ih =>
    rw [List.find?_eq_none] at hl
    have hpa : ¬p a = true := hl a (List.mem_cons_self a l)
    rw [List.cons_append, List.find?_cons_of_neg _ hpa]
    exact ih (List.find?_eq_none.mpr (fun x hxl => hl x (List.mem_cons_of_mem a hxl)))

/-- When the key column of a table is duplicate-free, a WHERE clause that
pins down the key matches at most one row. -/
theorem length_filter_le_one_of_nodup {α β : Type} [DecidableEq β] (key : α → β)
    (l : List α) (h : (l.map key).Nodup) (p : α → Bool) (k : β)
    (hk : ∀ a, p a = true → key a = k) :
    (l.filter p).length ≤ 1 := by
  cases hf : l.filter p with
  | nil => simp
  | cons a tl =>
    cases htl : tl with
    | nil => simp
    | cons b tl2 =>
      exfalso
      have hsub : ((l.filter p).map key).Nodup :=
        ((List.filter_sublist l).map key).nodup h
      rw [hf, htl] at hsub
      have ha : a ∈ l.filter p := by rw [hf]; exact List.mem_cons_self a tl
      have hb : b ∈ l.filter p := by
        rw [hf, htl]; exact List.mem_cons_of_mem a (List.mem_cons_self b tl2)
      have hka : key a = k := hk a (List.of_mem_filter ha)
      have hkb : key b = k := hk b (List.of_mem_filter hb)
      simp only [List.map_cons, List.nodup_cons, List.mem_cons] at hsub
      exact hsub.1 (Or.inl (hka.trans hkb.symm))

/-! A concrete database used to exercise the handlers on specific inputs. -/

/-- The tenant t1 used by the concrete scenarios. -/
def exTenant : TenantRow :=
  { id := "t1", bot_token := "bot1", client_id := "client1", client_secret := "secret1",
    public_key := "pk1", private_key := "sk1", next_id := 5, created_at := "2024-01-01" }

/-- A pending auth code for t1 with no stored redirect_uri. -/
def exAuthCode1 : AuthCodeRow :=
  { code := "code1", tenant_id := "t1", guild_id := "g1", redirect_uri := "" }

/-- A pending auth code for t1 whose stored redirect_uri is non-empty. -/
def exAuthCode2 : AuthCodeRow :=
  { code := "code2", tenant_id := "t1", guild_id := "g1", redirect_uri := "https://app.example/cb" }

/-- An audit log row recorded for t1 before reset or deletion. -/
def exAuditRow : AuditLogRow :=
  { tenant_id := some "t1", method := "GET", url := "http://fake/api/v10/channels/ch1",
    request_body := none, response_status := 200, response_body := some "ok",
    created_at := "2024-01-01" }

/-- A message already stored for t1 in channel ch1. -/
def exMessage : MessageRow :=
  { tenant_id := "t1", id := "msg-1", channel_id := "ch1",
    payload := [("content", JLit.jstr "Hi")], created_at := "2024-01-01" }

/-- A command already registered for (t1, g1). -/
def exCommand : RegisteredCommandRow :=
  { tenant_id := "t1", id := "cmd-0", guild_id := "g1",
    payload := [("name", JLit.jstr "old")], registered_at := "2024-01-01" }

/-- A concrete database: one tenant with a guild, a channel, one message,
two pending auth codes, one registered command and one audit log row. -/
def exDB : DB :=
  { tenants := [exTenant],
    guilds := [{ tenant_id := "t1", id := "g1", name := "Guild One" }],
    channels := [{ tenant_id := "t1", guild_id := "g1", id := "ch1", name := "general" }],
    auth_codes := [exAuthCode1, exAuthCode2],
    access_tokens := [],
    messages := [exMessage],
    message_edits := [],
    reactions := [],
    interaction_responses := [],
    followups := [],
    registered_commands := [exCommand],
    audit_logs := [exAuditRow] }

/-! Claim C2: the ID generator. -/

/-- Updating the counter of the tenant rows whose id matches leaves the
first row found for that id in place, with its counter bumped. -/
theorem find?_bumpTenant (db : DB) (tid : String) (t : TenantRow)
    (h : findTenantById db tid = some t) :
    findTenantById (bumpTenant db tid) tid = some { t with next_id := t.next_id + 1 } := by
  unfold findTenantById bumpTenant at *
  exact find?_map_ite (fun u => u.id == tid)
    (fun u => { u with next_id := u.next_id + 1 }) (fun a => rfl) db.tenants t h

/-- A successful generateId call returns the pre-increment counter under the
requested prefix and leaves the database with the counter bumped by one. -/
theorem generateId_eq (db : DB) (tid pre : String) (t : TenantRow)
    (h : findTenantById db tid = some t) :
    generateId db tid pre = some (pre ++ "-" ++ toString t.next_id, bumpTenant db tid) := by
  unfold generateId
  rw [find?_bumpTenant db tid t h]
  simp

/-- Iterated generateId, threading the database: the sequence of calls a
handler run performs for one tenant. -/
def genFold (db : DB) (tid : String) : List String → Option (List String × DB)
  | [] => some ([], db)
  | q :: qs =>
    match generateId db tid q with
    | none => none
    | some (s, db1) =>
      match genFold db1 tid qs with
      | none => none
      | some (rest, db2) => some (s :: rest, db2)

/-- Iterated generateId returns the ids prefix-k for the consecutive counter
values starting at the tenant's next_id, and leaves the counter advanced by
the number of calls. -/
theorem genFold_eq (tid : String) (qs : List String) :
    ∀ (db : DB) (t : TenantRow), findTenantById db tid = some t →
    ∃ db', genFold db tid qs
        = some ((qs.zip (List.range' t.next_id qs.length)).map
            (fun q => q.1 ++ "-" ++ toString q.2), db')
      ∧ findTenantById db' tid = some { t with next_id := t.next_id + qs.length } := by
  induction qs with
  | nil =>
    intro db t h
    exact ⟨db, by simp [genFold], by simpa using h⟩
  | cons q qs ih =>
    intro db t h
    obtain ⟨db', h1, h2⟩ := ih (bumpTenant db tid) { t with next_id := t.next_id + 1 }
      (find?_bumpTenant db tid t h)
    dsimp only at h1 h2
    refine ⟨db', ?_, ?_⟩
    · rw [genFold, generateId_eq db tid q t h]
      dsimp only
      rw [h1]
      simp [List.range'_succ]
    · rw [h2]
      have : t.next_id + 1 + qs.length = t.next_id + (qs.length + 1) := by omega
      simp [this]

/-- C2: each successful generateId(T, P) call returns the string P-k where k
is the tenant's next_id immediately before the call, and bumps next_id by
exactly one; a sequence of calls for the same tenant yields the consecutive
counter values starting at next_id, which are pairwise strictly increasing
in call order, so all returned k are distinct and each later k exceeds every
earlier one. -/
theorem generateId_monotonic (db : DB) (tid : String) (t : TenantRow)
    (h : findTenantById db tid = some t) :
    (∀ pre, generateId db tid pre = some (pre ++ "-" ++ toString t.next_id, bumpTenant db tid)
      ∧ findTenantById (bumpTenant db tid) tid = some { t with next_id := t.next_id + 1 })
    ∧ ∀ qs : List String, ∃ db',
        genFold db tid qs
          = some ((qs.zip (List.range' t.next_id qs.length)).map
              (fun q => q.1 ++ "-" ++ toString q.2), db')
        ∧ findTenantById db' tid = some { t with next_id := t.next_id + qs.length }
        ∧ (List.range' t.next_id qs.length).Pairwise (· < ·) := by
  refine ⟨fun pre => ⟨generateId_eq db tid pre t h, find?_bumpTenant db tid t h⟩, fun qs => ?_⟩
  obtain ⟨db', h1, h2⟩ := genFold_eq tid qs db t h
  exact ⟨db', h1, h2, List.pairwise_lt_range' _ _⟩

/-- Witness for C2 on the concrete database: the tenant counter is 5, the
first generated message id is msg-5, and three further calls produce the
ids for counters 6, 7 and 8. -/
theorem generateId_monotonic_witness :
    generateId exDB "t1" "msg" = some ("msg-5", bumpTenant exDB "t1")
    ∧ ∃ db', genFold exDB "t1" ["msg", "resp", "cmd"]
        = some (["msg-5", "resp-6", "cmd-7"], db')
      ∧ findTenantById db' "t1" = some { exTenant with next_id := 8 } := by
  have h := generateId_monotonic exDB "t1" exTenant (by decide)
  refine ⟨(h.1 "msg").1, ?_⟩
  obtain ⟨db', h1, h2, _⟩ := h.2 ["msg", "resp", "cmd"]
  exact ⟨db', by simpa using h1, by simpa using h2⟩

/-! Claims C1 and C10: one-time auth codes in the token exchange. -/

/-- The auth_codes primary key: code strings are globally unique. -/
def acCodesNodup (db : DB) : Prop :=
  (db.auth_codes.map AuthCodeRow.code).Nodup

/-- Once the DELETE of the token exchange ran, no auth_codes row with the
consumed code remains, under the primary-key uniqueness of codes. -/
theorem no_code_after_delete (db : DB) (code tid : String) (ac : AuthCodeRow)
    (huniq : acCodesNodup db)
    (hac : db.auth_codes.find? (acMatches code tid) = some ac) :
    (db.auth_codes.filter (fun r => !acMatches code tid r)).find?
      (fun r => r.code == code) = none := by
  rw [List.find?_eq_none]
  intro r hr hcode
  have hmem := (List.mem_filter.mp hr).1
  have hkeep := (List.mem_filter.mp hr).2
  have hacp := List.find?_some hac
  have hacm := List.mem_of_find?_eq_some hac
  have hacc : ac.code = code := by
    have := (Bool.and_eq_true _ _).mp hacp
    exact eq_of_beq this.1
  have hrc : r.code = code := eq_of_beq hcode
  have : r = ac := List.inj_on_of_nodup_map huniq hmem hacm (hrc.trans hacc.symm)
  rw [this] at hkeep
  rw [hacp] at hkeep
  simp at hkeep

/-- A list with no row carrying the code has no row matching the code for
any tenant either. -/
theorem find?_acMatches_none (l : List AuthCodeRow) (code tid : String)
    (h : l.find? (fun r => r.code == code) = none) :
    l.find? (acMatches code tid) = none := by
  rw [List.find?_eq_none] at h ⊢
  intro r hr hm
  exact h r hr ((Bool.and_eq_true _ _).mp hm).1

/-- C1: with valid client credentials and a pending code whose stored
redirect_uri is empty or matches, the token exchange succeeds, the
auth_codes row for the code is removed, and any later exchange presenting
the same code with valid client credentials (for any tenant) is answered
401 invalid_grant without touching the database, so a given code is
exchanged successfully at most once. -/
theorem auth_code_single_use (db : DB) (cid cs code ruri tok : String)
    (t : TenantRow) (ac : AuthCodeRow)
    (huniq : acCodesNodup db)
    (ht : findTenantByClientId db cid = some t)
    (hs : t.client_secret = cs)
    (hac : db.auth_codes.find? (acMatches code t.id) = some ac)
    (hred : ac.redirect_uri = "" ∨ ac.redirect_uri = ruri) :
    ∃ gname db',
      tokenExchange db cid cs code ruri tok = (TokenResult.success tok ac.guild_id gname, db')
      ∧ db'.auth_codes.find? (fun r => r.code == code) = none
      ∧ ∀ cid₂ cs₂ ruri₂ tok₂ t₂,
          findTenantByClientId db' cid₂ = some t₂ → t₂.client_secret = cs₂ →
          tokenExchange db' cid₂ cs₂ code ruri₂ tok₂ = (TokenResult.invalidGrant, db') := by
  subst hs
  have hacp := List.find?_some hac
  have hacm := List.mem_of_find?_eq_some hac
  have hchanges : (db.auth_codes.filter (acMatches code t.id)) ≠ [] :=
    List.ne_nil_of_mem (List.mem_filter.mpr ⟨hacm, hacp⟩)
  have hchlen : ((db.auth_codes.filter (acMatches code t.id)).length == 0) = false := by
    simp only [beq_eq_false_iff_ne, ne_eq, List.length_eq_zero]
    exact hchanges
  have hredb : (ac.redirect_uri != "" && ac.redirect_uri != ruri) = false := by
    rcases hred with h | h <;> simp [h]
  have hnone := no_code_after_delete db code t.id ac huniq hac
  unfold tokenExchange
  rw [ht]
  dsimp only
  rw [if_neg (by simp : ¬((t.client_secret != t.client_secret) = true))]
  rw [hac]
  dsimp only
  rw [if_neg (by rw [hchlen]; exact Bool.false_ne_true)]
  rw [if_neg (by rw [hredb]; exact Bool.false_ne_true)]
  refine ⟨_, _, rfl, hnone, ?_⟩
  intro cid₂ cs₂ ruri₂ tok₂ t₂ ht₂ hs₂
  subst hs₂
  rw [ht₂]
  dsimp only
  rw [if_neg (by simp : ¬((t₂.client_secret != t₂.client_secret) = true))]
  rw [find?_acMatches_none _ code t₂.id hnone]

/-- Witness for C1 on the concrete database: code1 (no stored redirect)
exchanges successfully once and the replay path is covered by the bundled
universally quantified clause. -/
theorem auth_code_single_use_witness :
    ∃ gname db',
      tokenExchange exDB "client1" "secret1" "code1" "" "tok1"
        = (TokenResult.success "tok1" exAuthCode1.guild_id gname, db')
      ∧ db'.auth_codes.find? (fun r => r.code == "code1") = none
      ∧ ∀ cid₂ cs₂ ruri₂ tok₂ t₂,
          findTenantByClientId db' cid₂ = some t₂ → t₂.client_secret = cs₂ →
          tokenExchange db' cid₂ cs₂ "code1" ruri₂ tok₂ = (TokenResult.invalidGrant, db') :=
  auth_code_single_use exDB "client1" "secret1" "code1" "" "tok1" exTenant exAuthCode1
    (by show (exDB.auth_codes.map AuthCodeRow.code).Nodup; decide)
    (by decide) (by decide) (by decide) (Or.inl (by decide))

/-- C10: with valid client credentials and a pending code whose stored
redirect_uri is non-empty and differs from the submitted one, the exchange
answers 400 redirect_uri mismatch, yet the auth_codes row is already gone,
and retrying with the correct redirect_uri is answered 401 invalid_grant:
the error is not state-preserving. -/
theorem redirect_mismatch_consumes_code (db : DB) (cid cs code ruri tok tok₂ : String)
    (t : TenantRow) (ac : AuthCodeRow)
    (huniq : acCodesNodup db)
    (ht : findTenantByClientId db cid = some t)
    (hs : t.client_secret = cs)
    (hac : db.auth_codes.find? (acMatches code t.id) = some ac)
    (hne : ac.redirect_uri ≠ "")
    (hmm : ac.redirect_uri ≠ ruri) :
    ∃ db',
      tokenExchange db cid cs code ruri tok = (TokenResult.redirectMismatch, db')
      ∧ db'.auth_codes.find? (fun r => r.code == code) = none
      ∧ tokenExchange db' cid cs code ac.redirect_uri tok₂ = (TokenResult.invalidGrant, db') := by
  subst hs
  have hacp := List.find?_some hac
  have hacm := List.mem_of_find?_eq_some hac
  have hchanges : (db.auth_codes.filter (acMatches code t.id)) ≠ [] :=
    List.ne_nil_of_mem (List.mem_filter.mpr ⟨hacm, hacp⟩)
  have hchlen : ((db.auth_codes.filter (acMatches code t.id)).length == 0) = false := by
    simp only [beq_eq_false_iff_ne, ne_eq, List.length_eq_zero]
    exact hchanges
  have hredb : (ac.redirect_uri != "" && ac.redirect_uri != ruri) = true := by
    simp [bne_iff_ne, hne, hmm]
  have hnone := no_code_after_delete db code t.id ac huniq hac
  unfold tokenExchange
  rw [ht]
  dsimp only
  rw [if_neg (by simp : ¬((t.client_secret != t.client_secret) = true))]
  rw [hac]
  dsimp only
  rw [if_neg (by rw [hchlen]; exact Bool.false_ne_true)]
  rw [if_pos hredb]
  refine ⟨_, rfl, hnone, ?_⟩
  have ht' : findTenantByClientId
      { db with auth_codes := db.auth_codes.filter (fun r => !acMatches code t.id r) } cid
      = some t := ht
  rw [ht']
  dsimp only
  rw [if_neg (by simp : ¬((t.client_secret != t.client_secret) = true))]
  rw [find?_acMatches_none _ code t.id hnone]

/-- Witness for C10 on the concrete database: code2 stores a redirect_uri
that differs from the submitted empty one; the mismatch reply still
consumes the code and the retry with the stored redirect_uri is rejected. -/
theorem redirect_mismatch_consumes_code_witness :
    ∃ db',
      tokenExchange exDB "client1" "secret1" "code2" "" "tok1"
        = (TokenResult.redirectMismatch, db')
      ∧ db'.auth_codes.find? (fun r => r.code == "code2") = none
      ∧ tokenExchange db' "client1" "secret1" "code2" exAuthCode2.redirect_uri "tok2"
        = (TokenResult.invalidGrant, db') :=
  redirect_mismatch_consumes_code exDB "client1" "secret1" "code2" "" "tok1" "tok2"
    exTenant exAuthCode2 (by show (exDB.auth_codes.map AuthCodeRow.code).Nodup; decide)
    (by decide) (by decide) (by decide) (by decide) (by decide)

/-! Claims C4 and C5: what reset and delete actually clear. The reset and
delete handlers issue no DELETE against audit_logs, so audit rows for the
tenant survive both, although everything else is cleared as described. -/

/-- C4 evaluation at the failing input: after POST /_test/t1/reset on the
concrete database, the eight mutable tables the batch touches are empty,
next_id is 1 and guilds and channels survive, but the audit_logs row
recorded for t1 is still there, contradicting the claim that audit_logs
holds no rows for the tenant after reset. -/
theorem reset_keeps_audit_rows :
    (resetTenant exDB "t1").map DB.followups = some []
    ∧ (resetTenant exDB "t1").map DB.interaction_responses = some []
    ∧ (resetTenant exDB "t1").map DB.registered_commands = some []
    ∧ (resetTenant exDB "t1").map DB.reactions = some []
    ∧ (resetTenant exDB "t1").map DB.message_edits = some []
    ∧ (resetTenant exDB "t1").map DB.messages = some []
    ∧ (resetTenant exDB "t1").map DB.access_tokens = some []
    ∧ (resetTenant exDB "t1").map DB.auth_codes = some []
    ∧ ((resetTenant exDB "t1").bind (fun d => findTenantById d "t1"))
        = some { exTenant with next_id := 1 }
    ∧ (resetTenant exDB "t1").map DB.guilds = some exDB.guilds
    ∧ (resetTenant exDB "t1").map DB.channels = some exDB.channels
    ∧ (resetTenant exDB "t1").map DB.audit_logs = some [exAuditRow]
    ∧ exAuditRow.tenant_id = some "t1" := by decide

/-- C5 evaluation at the failing input: after DELETE /_test/tenants/t1 on
the concrete database, every table the batch touches holds no t1 rows and
the tenants row is gone, but the audit_logs row referencing t1 is still
there, contradicting the claim that no rows referencing the tenant remain
in any table. -/
theorem delete_tenant_keeps_audit_rows :
    (deleteTenantRoute exDB "t1").map DB.guilds = some []
    ∧ (deleteTenantRoute exDB "t1").map DB.channels = some []
    ∧ (deleteTenantRoute exDB "t1").map DB.auth_codes = some []
    ∧ (deleteTenantRoute exDB "t1").map DB.access_tokens = some []
    ∧ (deleteTenantRoute exDB "t1").map DB.messages = some []
    ∧ (deleteTenantRoute exDB "t1").map DB.message_edits = some []
    ∧ (deleteTenantRoute exDB "t1").map DB.reactions = some []
    ∧ (deleteTenantRoute exDB "t1").map DB.interaction_responses = some []
    ∧ (deleteTenantRoute exDB "t1").map DB.followups = some []
    ∧ (deleteTenantRoute exDB "t1").map DB.registered_commands = some []
    ∧ (deleteTenantRoute exDB "t1").map DB.tenants = some []
    ∧ (deleteTenantRoute exDB "t1").map DB.audit_logs = some [exAuditRow]
    ∧ exAuditRow.tenant_id = some "t1" := by decide

/-! Claim C9: the audit-logging middleware. -/

/-- C9: the middleware never logs a request whose path ends in /audit-logs;
for every other request, when the logging block does not throw, exactly the
one expected audit_logs row is appended after the handler completed; and
whether or not logging throws, the response handed back is exactly the
handler's response. -/
theorem audit_middleware_spec (db : DB) (req : AuditReq) (out : HandlerOut)
    (now : String) (logFails : Bool) :
    (auditMiddleware db req out now logFails).1 = out
    ∧ (strEndsWith req.path "/audit-logs" = true →
        (auditMiddleware db req out now logFails).2 = db)
    ∧ (strEndsWith req.path "/audit-logs" = false → logFails = false →
        (auditMiddleware db req out now logFails).2.audit_logs
          = db.audit_logs ++
            [{ tenant_id := out.tenant, method := req.method, url := req.url,
               request_body :=
                 if req.method == "GET" || req.method == "HEAD" then none else req.request_body,
               response_status := out.status, response_body := out.body, created_at := now }])
    ∧ (logFails = true → (auditMiddleware db req out now logFails).2 = db) := by
  refine ⟨?_, ?_, ?_, ?_⟩
  · unfold auditMiddleware
    by_cases h : strEndsWith req.path "/audit-logs" = true <;> cases logFails <;> simp [h]
  · intro h
    unfold auditMiddleware
    simp [h]
  · intro h hf
    unfold auditMiddleware
    simp [h, hf]
  · intro hf
    unfold auditMiddleware
    by_cases h : strEndsWith req.path "/audit-logs" = true <;> simp [h, hf]

/-- A request whose path ends in /audit-logs, as the log browser sends. -/
def exSkipReq : AuditReq :=
  { method := "GET", url := "http://fake/_test/t1/audit-logs",
    path := "/_test/t1/audit-logs", request_body := none }

/-- An ordinary API request the middleware must log. -/
def exLogReq : AuditReq :=
  { method := "POST", url := "http://fake/api/v10/channels/ch1/messages",
    path := "/api/v10/channels/ch1/messages", request_body := some "hello" }

/-- A handler response as the middleware observes it. -/
def exHandlerOut : HandlerOut :=
  { status := 200, body := some "ok", tenant := some "t1" }

/-- Witness for C9: on the concrete database, the audit-log read is passed
through without a new row, and an ordinary request keeps its handler
response unchanged while its row is appended. -/
theorem audit_middleware_spec_witness :
    (auditMiddleware exDB exSkipReq exHandlerOut "T1" false).2 = exDB
    ∧ (auditMiddleware exDB exLogReq exHandlerOut "T1" true).1 = exHandlerOut
    ∧ (auditMiddleware exDB exLogReq exHandlerOut "T1" false).2.audit_logs
        = exDB.audit_logs ++
          [{ tenant_id := some "t1", method := "POST",
             url := "http://fake/api/v10/channels/ch1/messages",
             request_body := some "hello", response_status := 200,
             response_body := some "ok", created_at := "T1" }] :=
  ⟨(audit_middleware_spec exDB exSkipReq exHandlerOut "T1" false).2.1 (by decide),
   (audit_middleware_spec exDB exLogReq exHandlerOut "T1" true).1,
   by
    have h := (audit_middleware_spec exDB exLogReq exHandlerOut "T1" false).2.2.1
      (by decide) rfl
    rw [h]
    decide⟩

/-! Claim C8: the send-message handler. The stored payload is the whole
body; the response content is computed with a JS truthiness fallback, not
with nullish coalescing. -/

/-- C8 counterexample: for the body with content: false, the handler
answers content "" although the field is present and non-null, so the
response content does not follow the nullish-coalescing rule the claim
states (which would keep the value false). -/
theorem send_message_content_counterexample :
    (sendMessage exDB "t1" "ch1" [("content", JLit.jbool false)] "T1").map
        (fun q => q.1.content) = some (JLit.jstr "")
    ∧ contentCoalesceSpec [("content", JLit.jbool false)] = JLit.jbool false
    ∧ JLit.jstr "" ≠ JLit.jbool false := by decide

/-- C8 amended: a successful send stores the entire body verbatim as the
message payload under the fresh id msg-(next_id), and the returned content
equals body.content exactly when that field is present and truthy;
for an absent field, and for any present falsy value (null, false, 0, ""),
the returned content is "". -/
theorem send_message_stores_body (db : DB) (tid ch : String) (body : Body) (now : String)
    (t : TenantRow) (c : ChannelRow)
    (hch : db.channels.find? (fun x => x.tenant_id == tid && x.id == ch) = some c)
    (ht : findTenantById db tid = some t) :
    ∃ resp db',
      sendMessage db tid ch body now = some (resp, db')
      ∧ resp.id = "msg-" ++ toString t.next_id
      ∧ resp.channel_id = ch
      ∧ db'.messages = db.messages ++
          [{ tenant_id := tid, id := "msg-" ++ toString t.next_id, channel_id := ch,
             payload := body, created_at := now }]
      ∧ (∀ v, getField body "content" = some v → v.truthy = true → resp.content = v)
      ∧ (getField body "content" = none → resp.content = JLit.jstr "")
      ∧ (∀ v, getField body "content" = some v → v.truthy = false →
          resp.content = JLit.jstr "") := by
  unfold sendMessage
  rw [hch]
  dsimp only
  rw [generateId_eq db tid "msg" t ht]
  dsimp only
  refine ⟨_, _, rfl, rfl, rfl, rfl, ?_, ?_, ?_⟩
  · intro v hv htr
    simp [contentOrEmpty, hv, htr]
  · intro hv
    simp [contentOrEmpty, hv]
  · intro v hv htr
    simp [contentOrEmpty, hv, htr]

/-- Witness for C8 amended on the concrete database, with a truthy content
string: the message is appended verbatim and the content is echoed. -/
theorem send_message_stores_body_witness :
    ∃ resp db',
      sendMessage exDB "t1" "ch1" [("content", JLit.jstr "yo")] "T1" = some (resp, db')
      ∧ resp.id = "msg-" ++ toString exTenant.next_id
      ∧ resp.channel_id = "ch1"
      ∧ db'.messages = exDB.messages ++
          [{ tenant_id := "t1", id := "msg-" ++ toString exTenant.next_id, channel_id := "ch1",
             payload := [("content", JLit.jstr "yo")], created_at := "T1" }]
      ∧ (∀ v, getField [("content", JLit.jstr "yo")] "content" = some v →
          v.truthy = true → resp.content = v)
      ∧ (getField [("content", JLit.jstr "yo")] "content" = none → resp.content = JLit.jstr "")
      ∧ (∀ v, getField [("content", JLit.jstr "yo")] "content" = some v →
          v.truthy = false → resp.content = JLit.jstr "") :=
  send_message_stores_body exDB "t1" "ch1" [("content", JLit.jstr "yo")] "T1"
    exTenant { tenant_id := "t1", guild_id := "g1", id := "ch1", name := "general" }
    (by decide) (by decide)

/-! Claim C6: bulk overwrite of guild commands. -/

/-- Fresh id generation for a command list succeeds whenever the tenant
exists, pairs the bodies in order, advances the counter by the number of
commands and leaves every other table untouched. -/
theorem genIds_spec (tid : String) (cmds : List Body) :
    ∀ (db : DB) (t : TenantRow), findTenantById db tid = some t →
    ∃ pairs db',
      genIds db tid cmds = some (pairs, db')
      ∧ pairs.map Prod.snd = cmds
      ∧ db'.registered_commands = db.registered_commands
      ∧ findTenantById db' tid = some { t with next_id := t.next_id + cmds.length } := by
  induction cmds with
  | nil =>
    intro db t h
    exact ⟨[], db, rfl, rfl, rfl, by simpa using h⟩
  | cons c cs ih =>
    intro db t h
    obtain ⟨pairs, db', h1, h2, h3, h4⟩ := ih (bumpTenant db tid)
      { t with next_id := t.next_id + 1 } (find?_bumpTenant db tid t h)
    dsimp only at h4
    refine ⟨("cmd-" ++ toString t.next_id, c) :: pairs, db', ?_, ?_, ?_, ?_⟩
    · simp only [genIds]
      rw [generateId_eq db tid "cmd" t h]
      dsimp only
      rw [h1]
      exact rfl
    · simpa using h2
    · rw [h3]
      exact rfl
    · rw [h4]
      have : t.next_id + 1 + cs.length = t.next_id + (c :: cs).length := by
        simp [List.length_cons]
        omega
      rw [this]

/-- The commands currently registered for one (tenant, guild) pair. -/
def commandsFor (db : DB) (tid gid : String) : List RegisteredCommandRow :=
  db.registered_commands.filter (cmdMatches tid gid)

/-- Replacing the rows a predicate selects: after deleting them and
appending rows that all satisfy it, exactly the appended rows satisfy it. -/
theorem filter_replace {α : Type} (p : α → Bool) (l news : List α)
    (hnews : ∀ a ∈ news, p a = true) :
    ((l.filter (fun a => !p a)) ++ news).filter p = news := by
  rw [List.filter_append, List.filter_filter]
  have h1 : (l.filter (fun a => p a && !p a)) = [] := by
    rw [List.filter_eq_nil_iff]
    intro a _
    cases p a <;> simp
  rw [h1, List.filter_eq_self.mpr hnews, List.nil_append]

/-- C6: a successful bulk overwrite makes the registered_commands set for
(tenant, guild) exactly the freshly inserted rows, one per command of the
request in order with the request bodies as payloads, so nothing previously
registered for the pair survives; and running the same PUT again yields the
same post-state set of (guild, payload) rows, only under new cmd-N ids. -/
theorem bulk_overwrite_replaces (db : DB) (tid gid : String) (cmds : List Body)
    (now now₂ : String) (t : TenantRow)
    (ht : findTenantById db tid = some t) :
    ∃ pairs db₁,
      bulkOverwriteCommands db tid gid cmds now = some (pairs, db₁)
      ∧ commandsFor db₁ tid gid = pairs.map (cmdRow tid gid now)
      ∧ (commandsFor db₁ tid gid).map RegisteredCommandRow.payload = cmds
      ∧ ∃ pairs₂ db₂,
          bulkOverwriteCommands db₁ tid gid cmds now₂ = some (pairs₂, db₂)
          ∧ (commandsFor db₂ tid gid).map (fun r => (r.guild_id, r.payload))
            = (commandsFor db₁ tid gid).map (fun r => (r.guild_id, r.payload)) := by
  obtain ⟨pairs, db', h1, h2, h3, h4⟩ := genIds_spec tid cmds db t ht
  have hrows : ∀ (now' : String) (ps : List (String × Body)),
      ∀ a ∈ ps.map (cmdRow tid gid now'), cmdMatches tid gid a = true := by
    intro now' ps a ha
    obtain ⟨p, _, rfl⟩ := List.mem_map.mp ha
    simp [cmdRow, cmdMatches]
  have hcf : ∀ (d : DB) (now' : String) (ps : List (String × Body)),
      commandsFor (replaceCommands d tid gid now' ps) tid gid = ps.map (cmdRow tid gid now') := by
    intro d now' ps
    exact filter_replace (cmdMatches tid gid) d.registered_commands _ (hrows now' ps)
  have hbulk : bulkOverwriteCommands db tid gid cmds now
      = some (pairs, replaceCommands db' tid gid now pairs) := by
    unfold bulkOverwriteCommands
    rw [h1]
  have hfind₁ : findTenantById (replaceCommands db' tid gid now pairs) tid
      = some { t with next_id := t.next_id + cmds.length } := h4
  obtain ⟨pairs₂, db₂', g1, g2, g3, g4⟩ := genIds_spec tid cmds _ _ hfind₁
  have hbulk₂ : bulkOverwriteCommands (replaceCommands db' tid gid now pairs) tid gid cmds now₂
      = some (pairs₂, replaceCommands db₂' tid gid now₂ pairs₂) := by
    unfold bulkOverwriteCommands
    rw [g1]
  have hproj : ∀ (now' : String) (ps : List (String × Body)),
      List.map Prod.snd ps = cmds →
      (ps.map (cmdRow tid gid now')).map (fun r => (r.guild_id, r.payload))
        = cmds.map (fun c => (gid, c)) := by
    intro now' ps hps
    rw [List.map_map]
    have he : ((fun r : RegisteredCommandRow => (r.guild_id, r.payload)) ∘ cmdRow tid gid now')
        = (fun c : Body => (gid, c)) ∘ Prod.snd := rfl
    rw [he, ← List.map_map, hps]
  refine ⟨pairs, _, hbulk, hcf db' now pairs, ?_, pairs₂, _, hbulk₂, ?_⟩
  · rw [hcf db' now pairs, List.map_map]
    have he : RegisteredCommandRow.payload ∘ cmdRow tid gid now = Prod.snd := rfl
    rw [he, h2]
  · rw [hcf db' now pairs, hcf db₂' now₂ pairs₂, hproj now pairs h2, hproj now₂ pairs₂ g2]

/-- Witness for C6 on the concrete database: overwriting (t1, g1) with two
commands replaces the previously registered cmd-0 row. -/
theorem bulk_overwrite_replaces_witness :
    ∃ pairs db₁,
      bulkOverwriteCommands exDB "t1" "g1"
        [[("name", JLit.jstr "ping")], [("name", JLit.jstr "help")]] "T1" = some (pairs, db₁)
      ∧ commandsFor db₁ "t1" "g1" = pairs.map (cmdRow "t1" "g1" "T1")
      ∧ (commandsFor db₁ "t1" "g1").map RegisteredCommandRow.payload
          = [[("name", JLit.jstr "ping")], [("name", JLit.jstr "help")]]
      ∧ ∃ pairs₂ db₂,
          bulkOverwriteCommands db₁ "t1" "g1"
            [[("name", JLit.jstr "ping")], [("name", JLit.jstr "help")]] "T2" = some (pairs₂, db₂)
          ∧ (commandsFor db₂ "t1" "g1").map (fun r => (r.guild_id, r.payload))
            = (commandsFor db₁ "t1" "g1").map (fun r => (r.guild_id, r.payload)) :=
  bulk_overwrite_replaces exDB "t1" "g1"
    [[("name", JLit.jstr "ping")], [("name", JLit.jstr "help")]] "T1" "T2"
    exTenant (by decide)

/-! Claim C7: at most one interaction response per (tenant, token), holding
the body of the most recent PATCH. -/

/-- The key column pair of the interaction_responses primary key. -/
def respKey (r : InteractionResponseRow) : String × String :=
  (r.tenant_id, r.interaction_token)

/-- Primary-key uniqueness of interaction_responses. -/
def respKeysNodup (db : DB) : Prop :=
  (db.interaction_responses.map respKey).Nodup

/-- A PATCH @original request after tenant resolution. -/
structure PatchReq where
  tid : String
  token : String
  body : Body
  now : String
deriving DecidableEq, Repr

/-- Run a sequence of edit-interaction-response requests, threading the
database; none when some request hits a missing tenant row. -/
def applyPatches (db : DB) : List PatchReq → Option DB
  | [] => some db
  | r :: rs =>
    match editInteractionResponse db r.tid r.token r.body r.now with
    | none => none
    | some q => applyPatches q.2 rs

/-- The body of the last request in the sequence addressed to the given
(tenant, token) pair, when any. -/
def lastPatchBody (reqs : List PatchReq) (tid token : String) : Option Body :=
  ((reqs.filter (fun r => r.tid == tid && r.token == token)).getLast?).map PatchReq.body

/-- A successful generateId call leaves exactly the bumped database. -/
theorem generateId_db (db : DB) (tid pre s : String) (db1 : DB)
    (h : generateId db tid pre = some (s, db1)) : db1 = bumpTenant db tid := by
  unfold generateId at h
  cases hf : findTenantById (bumpTenant db tid) tid with
  | none => rw [hf] at h; cases h
  | some t => rw [hf] at h; cases h; rfl

/-- The upsert preserves primary-key uniqueness of interaction_responses. -/
theorem upsert_keys_nodup (db : DB) (tid token respId : String) (body : Body) (now : String)
    (h : respKeysNodup db) :
    respKeysNodup (upsertInteractionResponse db tid token respId body now) := by
  unfold respKeysNodup upsertInteractionResponse at *
  by_cases hany : db.interaction_responses.any (respMatches tid token) = true
  · rw [if_pos hany]
    dsimp only
    rw [List.map_map]
    have he : ∀ a ∈ db.interaction_responses,
        (respKey ∘ (fun r => if respMatches tid token r then
          { r with response_id := respId, payload := body, responded_at := now }
        else r)) a = respKey a := by
      intro a _
      by_cases hm : respMatches tid token a = true
      · simp [hm, respKey]
      · simp [hm]
    rw [List.map_congr_left he]
    exact h
  · rw [if_neg hany]
    dsimp only
    rw [List.map_append]
    rw [List.nodup_append]
    refine ⟨h, List.nodup_singleton _, ?_⟩
    intro k hk hk2
    simp only [List.map_cons, List.map_nil, List.mem_singleton] at hk2
    obtain ⟨r, hr, hkr⟩ := List.mem_map.mp hk
    rw [List.any_eq_true] at hany
    apply hany
    refine ⟨r, hr, ?_⟩
    have : respKey r = (tid, token) := by rw [hkr, hk2]; rfl
    unfold respKey at this
    unfold respMatches
    rw [Prod.mk.injEq] at this
    simp [this.1, this.2]

/-- After the upsert for (tenant, token), the row found for that pair holds
the freshly PATCHed payload, response id and timestamp. -/
theorem upsert_find_same (db : DB) (tid token respId : String) (body : Body) (now : String) :
    ∃ row,
      (upsertInteractionResponse db tid token respId body now).interaction_responses.find?
        (respMatches tid token) = some row
      ∧ row.payload = body ∧ row.response_id = respId ∧ row.responded_at = now := by
  unfold upsertInteractionResponse
  by_cases hany : db.interaction_responses.any (respMatches tid token) = true
  · rw [if_pos hany]
    dsimp only
    have hsome : (db.interaction_responses.find? (respMatches tid token)).isSome := by
      rw [List.find?_isSome]
      exact List.any_eq_true.mp hany
    obtain ⟨t₀, ht₀⟩ := Option.isSome_iff_exists.mp hsome
    refine ⟨{ t₀ with response_id := respId, payload := body, responded_at := now }, ?_, rfl, rfl, rfl⟩
    exact find?_map_ite (respMatches tid token)
      (fun r => { r with response_id := respId, payload := body, responded_at := now })
      (fun a => rfl) db.interaction_responses t₀ ht₀
  · rw [if_neg hany]
    dsimp only
    refine ⟨InteractionResponseRow.mk tid token respId body now, ?_, rfl, rfl, rfl⟩
    apply find?_append_singleton_pos
    · rw [List.find?_eq_none]
      intro x hx hpx
      exact hany (List.any_eq_true.mpr ⟨x, hx, hpx⟩)
    · simp [respMatches]

/-- An upsert for a different (tenant, token) pair does not change what is
found for this pair. -/
theorem upsert_find_other (db : DB) (tid token tid' token' respId : String)
    (body : Body) (now : String)
    (hne : ¬(tid' = tid ∧ token' = token)) :
    (upsertInteractionResponse db tid' token' respId body now).interaction_responses.find?
      (respMatches tid token)
    = db.interaction_responses.find? (respMatches tid token) := by
  unfold upsertInteractionResponse
  by_cases hany : db.interaction_responses.any (respMatches tid' token') = true
  · rw [if_pos hany]
    dsimp only
    apply find?_map_invariant
    · intro a
      by_cases hm : respMatches tid' token' a = true
      · rw [if_pos hm]
        exact rfl
      · rw [if_neg hm]
    · intro a hpa
      have h1 : a.tenant_id = tid ∧ a.interaction_token = token := by
        unfold respMatches at hpa
        rw [Bool.and_eq_true] at hpa
        exact ⟨eq_of_beq hpa.1, eq_of_beq hpa.2⟩
      have h2 : respMatches tid' token' a = false := by
        unfold respMatches
        cases hb1 : (a.tenant_id == tid') with
        | false => simp
        | true =>
          cases hb2 : (a.interaction_token == token') with
          | false => simp
          | true =>
            exact absurd ⟨(eq_of_beq hb1).symm.trans h1.1,
              (eq_of_beq hb2).symm.trans h1.2⟩ hne
      rw [h2]
      simp
  · rw [if_neg hany]
    dsimp only
    apply find?_append_singleton_neg
    intro hp
    unfold respMatches at hp
    rw [Bool.and_eq_true] at hp
    exact hne ⟨eq_of_beq hp.1, eq_of_beq hp.2⟩

/-- Patching other pairs only: the row found for (tenant, token) is
untouched by a run of requests none of which addresses the pair. -/
theorem applyPatches_find_other (rs : List PatchReq) :
    ∀ (db db' : DB) (tid token : String),
    (∀ x ∈ rs, ¬(x.tid = tid ∧ x.token = token)) →
    applyPatches db rs = some db' →
    db'.interaction_responses.find? (respMatches tid token)
      = db.interaction_responses.find? (respMatches tid token) := by
  induction rs with
  | nil =>
    intro db db' tid token _ happ
    cases happ
    rfl
  | cons r rs ih =>
    intro db db' tid token hno happ
    unfold applyPatches editInteractionResponse at happ
    cases hgen : generateId db r.tid "resp" with
    | none => rw [hgen] at happ; cases happ
    | some p =>
      obtain ⟨rid, db1⟩ := p
      rw [hgen] at happ
      dsimp only at happ
      have hdb1 : db1 = bumpTenant db r.tid := generateId_db db r.tid "resp" rid db1 hgen
      subst hdb1
      have hstep := upsert_find_other (bumpTenant db r.tid) tid token r.tid r.token rid
        r.body r.now (hno r (List.mem_cons_self r rs))
      have htail := ih _ db' tid token (fun x hx => hno x (List.mem_cons_of_mem r hx)) happ
      rw [htail, hstep]
      rfl

/-- Nonempty-tail form of getLast? on a cons cell. -/
theorem getLast?_cons_of_ne_nil {α : Type} (a : α) (l : List α) (h : l ≠ []) :
    (a :: l).getLast? = l.getLast? := by
  cases l with
  | nil => exact absurd rfl h
  | cons b l2 => exact List.getLast?_cons_cons

/-- C7: running any sequence of PATCH @original requests preserves the
primary-key uniqueness of interaction_responses, so at most one row exists
per (tenant, interactionToken) at any time, and the row found for a pair
holds the body of the most recent request in the sequence addressed to it. -/
theorem interaction_response_unique (reqs : List PatchReq) :
    ∀ (db db' : DB), respKeysNodup db → applyPatches db reqs = some db' →
    respKeysNodup db'
    ∧ (∀ tid token, (db'.interaction_responses.filter (respMatches tid token)).length ≤ 1)
    ∧ (∀ tid token b, lastPatchBody reqs tid token = some b →
        ∃ row, db'.interaction_responses.find? (respMatches tid token) = some row
          ∧ row.payload = b) := by
  induction reqs with
  | nil =>
    intro db db' hn happ
    cases happ
    refine ⟨hn, ?_, ?_⟩
    · intro tid token
      unfold respKeysNodup at hn
      apply length_filter_le_one_of_nodup respKey _ hn (respMatches tid token) (tid, token)
      intro a hpa
      unfold respMatches at hpa
      rw [Bool.and_eq_true] at hpa
      unfold respKey
      rw [eq_of_beq hpa.1, eq_of_beq hpa.2]
    · intro tid token b hb
      unfold lastPatchBody at hb
      simp at hb
  | cons r rs ih =>
    intro db db' hn happ
    unfold applyPatches editInteractionResponse at happ
    cases hgen : generateId db r.tid "resp" with
    | none => rw [hgen] at happ; cases happ
    | some p =>
      obtain ⟨rid, db1⟩ := p
      rw [hgen] at happ
      dsimp only at happ
      have hdb1 : db1 = bumpTenant db r.tid := generateId_db db r.tid "resp" rid db1 hgen
      subst hdb1
      have hn1 : respKeysNodup (upsertInteractionResponse (bumpTenant db r.tid)
          r.tid r.token rid r.body r.now) :=
        upsert_keys_nodup (bumpTenant db r.tid) r.tid r.token rid r.body r.now hn
      obtain ⟨hn', hcount, hlast⟩ := ih _ db' hn1 happ
      refine ⟨hn', hcount, ?_⟩
      intro tid token b hb
      unfold lastPatchBody at hb
      rw [List.filter_cons] at hb
      by_cases hq : (r.tid == tid && r.token == token) = true
      · rw [if_pos hq] at hb
        rw [Bool.and_eq_true] at hq
        have hqt : r.tid = tid := eq_of_beq hq.1
        have hqk : r.token = token := eq_of_beq hq.2
        cases hrest : rs.filter (fun x => x.tid == tid && x.token == token) with
        | nil =>
          rw [hrest] at hb
          have hb' : r.body = b := by simpa using hb
          subst hb'
          have hno : ∀ x ∈ rs, ¬(x.tid = r.tid ∧ x.token = r.token) := by
            rw [hqt, hqk]
            intro x hx hcon
            have hx2 : (fun x : PatchReq => x.tid == tid && x.token == token) x = true := by
              simp [hcon.1, hcon.2]
            have hxin : x ∈ rs.filter (fun x => x.tid == tid && x.token == token) :=
              List.mem_filter.mpr ⟨hx, hx2⟩
            rw [hrest] at hxin
            exact absurd hxin (List.not_mem_nil x)
          obtain ⟨row, hrow, hpl, _, _⟩ := upsert_find_same (bumpTenant db r.tid)
            r.tid r.token rid r.body r.now
          rw [← hqt, ← hqk]
          refine ⟨row, ?_, hpl⟩
          rw [applyPatches_find_other rs _ db' r.tid r.token hno happ, hrow]
        | cons y ys =>
          rw [hrest] at hb
          rw [getLast?_cons_of_ne_nil r (y :: ys) (by simp)] at hb
          refine hlast tid token b ?_
          unfold lastPatchBody
          rw [hrest]
          exact hb
      · rw [if_neg hq] at hb
        exact hlast tid token b hb

/-- Patch requests used by the C7 witness: two PATCHes for the same token. -/
def exPatches : List PatchReq :=
  [{ tid := "t1", token := "tokA", body := [("content", JLit.jstr "Pong")], now := "T1" },
   { tid := "t1", token := "tokA", body := [("content", JLit.jstr "Pong2")], now := "T2" }]

/-- Witness for C7 on the concrete database: after two PATCHes for tokA the
pair still has at most one row and its payload is the second body. -/
theorem interaction_response_unique_witness :
    ∃ db', applyPatches exDB exPatches = some db'
      ∧ respKeysNodup db'
      ∧ (∀ tid token, (db'.interaction_responses.filter (respMatches tid token)).length ≤ 1)
      ∧ ∃ row, db'.interaction_responses.find? (respMatches "t1" "tokA") = some row
          ∧ row.payload = [("content", JLit.jstr "Pong2")] := by
  have hsome : (applyPatches exDB exPatches).isSome = true := by decide
  obtain ⟨hn', hcount, hlast⟩ := interaction_response_unique exPatches exDB _
    (by show (exDB.interaction_responses.map respKey).Nodup; decide)
    (Option.some_get hsome).symm
  obtain ⟨row, hrow, hpl⟩ := hlast "t1" "tokA" [("content", JLit.jstr "Pong2")] (by decide)
  exact ⟨_, (Option.some_get hsome).symm, hn', hcount, row, hrow, hpl⟩

/-! Claim C3: the edit-message batch and its history. -/

/-- The key column pair of the messages primary key. -/
def msgKey (m : MessageRow) : String × String :=
  (m.tenant_id, m.id)

/-- Primary-key uniqueness of messages. -/
def msgKeysNodup (db : DB) : Prop :=
  (db.messages.map msgKey).Nodup

/-- The WHERE clause tenant_id = ? AND message_id = ? used when reading a
message's edit history. -/
def editKey (tid mid : String) (e : MessageEditRow) : Bool :=
  e.tenant_id == tid && e.message_id == mid

/-- The number of message_edits rows stored for one message. -/
def editCount (db : DB) (tid mid : String) : Nat :=
  (db.message_edits.filter (editKey tid mid)).length

/-- A PATCH edit-message request after bot authentication. -/
structure EditReq where
  tid : String
  ch : String
  mid : String
  body : Body
  now : String
deriving DecidableEq, Repr

/-- Run a sequence of edit requests, threading the database. -/
def applyEdits (db : DB) : List EditReq → DB
  | [] => db
  | r :: rs => applyEdits (editMessage db r.tid r.ch r.mid r.body r.now).2 rs

/-- How many requests of the sequence were successful edits of the given
message, counted against the database state each request actually saw. -/
def successEdits (db : DB) (tid mid : String) : List EditReq → Nat
  | [] => 0
  | r :: rs =>
    (if (editMessage db r.tid r.ch r.mid r.body r.now).1 ≠ EditResult.unknownMessage
        ∧ r.tid = tid ∧ r.mid = mid then 1 else 0)
    + successEdits (editMessage db r.tid r.ch r.mid r.body r.now).2 tid mid rs

/-- When no messages row matches (tenant, channel, message), the edit
handler answers 404 Unknown Message and the database is unchanged: in
particular no message_edits row is inserted. -/
theorem editMessage_no_match (db : DB) (tid ch mid : String) (body : Body) (now : String)
    (h : db.messages.filter (msgMatches tid ch mid) = []) :
    editMessage db tid ch mid body now = (EditResult.unknownMessage, db) := by
  have hall : ∀ m ∈ db.messages, ¬msgMatches tid ch mid m = true := List.filter_eq_nil_iff.mp h
  have hmap : db.messages.map
      (fun m => if msgMatches tid ch mid m then { m with payload := body } else m)
      = db.messages := by
    have he : ∀ a ∈ db.messages,
        (if msgMatches tid ch mid a then { a with payload := body } else a) = id a := by
      intro a ha
      rw [if_neg (hall a ha)]
      rfl
    rw [List.map_congr_left he, List.map_id]
  unfold editMessage
  simp only [h]
  simp [hmap]

/-- When exactly the one messages row matches, the edit handler answers 200,
appends exactly one message_edits row holding the pre-edit payload, and the
row now found for the message carries the new body as payload. -/
theorem editMessage_success (db : DB) (tid ch mid : String) (body : Body) (now : String)
    (m : MessageRow) (h : db.messages.filter (msgMatches tid ch mid) = [m]) :
    editMessage db tid ch mid body now
      = (EditResult.edited { id := mid, channel_id := ch, content := contentOrEmpty body },
         { db with
           message_edits := db.message_edits
             ++ [MessageEditRow.mk m.tenant_id m.id m.payload now],
           messages := db.messages.map
             (fun x => if msgMatches tid ch mid x then { x with payload := body } else x) })
    ∧ ((editMessage db tid ch mid body now).2.messages.filter (msgMatches tid ch mid))
        = [{ m with payload := body }] := by
  have hm : msgMatches tid ch mid m = true := by
    have : m ∈ db.messages.filter (msgMatches tid ch mid) := by
      rw [h]
      exact List.mem_singleton.mpr rfl
    exact List.of_mem_filter this
  have heq : editMessage db tid ch mid body now
      = (EditResult.edited { id := mid, channel_id := ch, content := contentOrEmpty body },
         { db with
           message_edits := db.message_edits
             ++ [MessageEditRow.mk m.tenant_id m.id m.payload now],
           messages := db.messages.map
             (fun x => if msgMatches tid ch mid x then { x with payload := body } else x) }) := by
    unfold editMessage
    simp only [h]
    simp
  refine ⟨heq, ?_⟩
  rw [heq]
  dsimp only
  have hcomm : (msgMatches tid ch mid) ∘
      (fun x : MessageRow => if msgMatches tid ch mid x then { x with payload := body } else x)
      = msgMatches tid ch mid := by
    funext a
    by_cases hx : msgMatches tid ch mid a = true
    · rw [Function.comp_apply, if_pos hx]
      cases hp : msgMatches tid ch mid a
      · rw [hp] at hx; cases hx
      · exact hp ▸ rfl
    · rw [Function.comp_apply, if_neg hx]
  rw [List.filter_map, hcomm, h, List.map_singleton, if_pos hm]

/-- One edit request changes the edit count of a message by one exactly when
it is a successful edit of that message, and preserves the messages
primary-key uniqueness. -/
theorem editMessage_count_step (db : DB) (r : EditReq) (tid mid : String)
    (hn : msgKeysNodup db) :
    editCount (editMessage db r.tid r.ch r.mid r.body r.now).2 tid mid
      = editCount db tid mid
        + (if (editMessage db r.tid r.ch r.mid r.body r.now).1 ≠ EditResult.unknownMessage
              ∧ r.tid = tid ∧ r.mid = mid then 1 else 0)
    ∧ msgKeysNodup (editMessage db r.tid r.ch r.mid r.body r.now).2 := by
  have hle : (db.messages.filter (msgMatches r.tid r.ch r.mid)).length ≤ 1 := by
    apply length_filter_le_one_of_nodup msgKey _ hn (msgMatches r.tid r.ch r.mid) (r.tid, r.mid)
    intro a hpa
    unfold msgMatches at hpa
    rw [Bool.and_eq_true, Bool.and_eq_true] at hpa
    unfold msgKey
    rw [eq_of_beq hpa.1.1, eq_of_beq hpa.1.2]
  have hnodup_map : ∀ body : Body, msgKeysNodup { db with
      message_edits := (editMessage db r.tid r.ch r.mid r.body r.now).2.message_edits,
      messages := db.messages.map
        (fun x => if msgMatches r.tid r.ch r.mid x then { x with payload := body } else x) } := by
    intro body
    unfold msgKeysNodup at hn ⊢
    dsimp only
    rw [List.map_map]
    have he : ∀ a ∈ db.messages,
        (msgKey ∘ (fun x => if msgMatches r.tid r.ch r.mid x then { x with payload := body } else x)) a
        = msgKey a := by
      intro a _
      by_cases hx : msgMatches r.tid r.ch r.mid a = true
      · rw [Function.comp_apply, if_pos hx]
        rfl
      · rw [Function.comp_apply, if_neg hx]
    rw [List.map_congr_left he]
    exact hn
  cases hf : db.messages.filter (msgMatches r.tid r.ch r.mid) with
  | nil =>
    have hstep := editMessage_no_match db r.tid r.ch r.mid r.body r.now hf
    rw [hstep]
    refine ⟨?_, hn⟩
    simp
  | cons m tl =>
    cases tl with
    | cons m2 tl2 =>
      exfalso
      rw [hf] at hle
      simp at hle
    | nil =>
      obtain ⟨heq, _⟩ := editMessage_success db r.tid r.ch r.mid r.body r.now m hf
      have hmm : msgMatches r.tid r.ch r.mid m = true := by
        have : m ∈ db.messages.filter (msgMatches r.tid r.ch r.mid) := by
          rw [hf]
          exact List.mem_singleton.mpr rfl
        exact List.of_mem_filter this
      have hmkeys : m.tenant_id = r.tid ∧ m.id = r.mid := by
        unfold msgMatches at hmm
        rw [Bool.and_eq_true, Bool.and_eq_true] at hmm
        exact ⟨eq_of_beq hmm.1.1, eq_of_beq hmm.1.2⟩
      constructor
      · rw [heq]
        dsimp only
        unfold editCount
        dsimp only
        rw [List.filter_append, List.length_append]
        have hone : (List.filter (editKey tid mid)
            [MessageEditRow.mk m.tenant_id m.id m.payload r.now]).length
            = if r.tid = tid ∧ r.mid = mid then 1 else 0 := by
          by_cases hc : r.tid = tid ∧ r.mid = mid
          · rw [if_pos hc]
            have : editKey tid mid (MessageEditRow.mk m.tenant_id m.id m.payload r.now) = true := by
              unfold editKey
              dsimp only
              rw [hmkeys.1, hmkeys.2, hc.1, hc.2]
              simp
            simp [List.filter_cons, this]
          · rw [if_neg hc]
            have : editKey tid mid (MessageEditRow.mk m.tenant_id m.id m.payload r.now) = false := by
              unfold editKey
              dsimp only
              rw [hmkeys.1, hmkeys.2]
              rcases Decidable.not_and_iff_or_not.mp hc with hc1 | hc1
              · rw [beq_eq_false_iff_ne.mpr hc1]
                simp
              · rw [beq_eq_false_iff_ne.mpr hc1]
                simp
            simp [List.filter_cons, this]
        rw [hone]
        simp
      · rw [heq]
        exact hnodup_map r.body

/-- Over any run of edit requests, the number of message_edits rows stored
for a message grows by exactly the number of successful edits of it. -/
theorem editCount_eq_successes (reqs : List EditReq) :
    ∀ db : DB, msgKeysNodup db → ∀ tid mid : String,
    editCount (applyEdits db reqs) tid mid = editCount db tid mid + successEdits db tid mid reqs := by
  induction reqs with
  | nil =>
    intro db _ tid mid
    simp [applyEdits, successEdits]
  | cons r rs ih =>
    intro db hn tid mid
    obtain ⟨hstep, hn2⟩ := editMessage_count_step db r tid mid hn
    unfold applyEdits successEdits
    rw [ih _ hn2 tid mid, hstep]
    omega

/-- C3: the edit-message batch appends one message_edits row carrying the
pre-edit payload and updates the message to the new body when the message
exists; when it does not, it answers 404 Unknown Message and changes
nothing; consequently, over any run of edits, the message_edits row count
of each message equals its number of successful edits. -/
theorem edit_message_history (db : DB) (tid ch mid : String) (body : Body) (now : String) :
    (db.messages.filter (msgMatches tid ch mid) = [] →
      editMessage db tid ch mid body now = (EditResult.unknownMessage, db))
    ∧ (∀ m, db.messages.filter (msgMatches tid ch mid) = [m] →
        editMessage db tid ch mid body now
          = (EditResult.edited { id := mid, channel_id := ch, content := contentOrEmpty body },
             { db with
               message_edits := db.message_edits
                 ++ [MessageEditRow.mk m.tenant_id m.id m.payload now],
               messages := db.messages.map
                 (fun x => if msgMatches tid ch mid x then { x with payload := body } else x) })
        ∧ ((editMessage db tid ch mid body now).2.messages.filter (msgMatches tid ch mid))
            = [{ m with payload := body }])
    ∧ (msgKeysNodup db → ∀ (reqs : List EditReq) (tid' mid' : String),
        editCount (applyEdits db reqs) tid' mid'
          = editCount db tid' mid' + successEdits db tid' mid' reqs) :=
  ⟨editMessage_no_match db tid ch mid body now,
   fun m hm => editMessage_success db tid ch mid body now m hm,
   fun hn reqs tid' mid' => editCount_eq_successes reqs db hn tid' mid'⟩

/-- Edit requests used by the C3 witness: one successful edit of msg-1 and
one 404 edit of a missing message. -/
def exEdits : List EditReq :=
  [{ tid := "t1", ch := "ch1", mid := "msg-1", body := [("content", JLit.jstr "Hi!")], now := "T1" },
   { tid := "t1", ch := "ch1", mid := "msg-9", body := [("content", JLit.jstr "X")], now := "T2" }]

/-- Witness for C3 on the concrete database: editing the missing msg-9 is a
404 no-op, editing the stored msg-1 records its old payload, and the run of
both requests leaves exactly one edit row for msg-1 and none for msg-9. -/
theorem edit_message_history_witness :
    editMessage exDB "t1" "ch1" "msg-9" [("content", JLit.jstr "X")] "T2"
      = (EditResult.unknownMessage, exDB)
    ∧ ((editMessage exDB "t1" "ch1" "msg-1" [("content", JLit.jstr "Hi!")] "T1").2.messages.filter
        (msgMatches "t1" "ch1" "msg-1")) = [{ exMessage with payload := [("content", JLit.jstr "Hi!")] }]
    ∧ editCount (applyEdits exDB exEdits) "t1" "msg-1"
        = editCount exDB "t1" "msg-1" + successEdits exDB "t1" "msg-1" exEdits := by
  refine ⟨?_, ?_, ?_⟩
  · exact (edit_message_history exDB "t1" "ch1" "msg-9"
      [("content", JLit.jstr "X")] "T2").1 (by decide)
  · exact ((edit_message_history exDB "t1" "ch1" "msg-1"
      [("content", JLit.jstr "Hi!")] "T1").2.1 exMessage (by decide)).2
  · exact (edit_message_history exDB "t1" "ch1" "msg-1"
      [("content", JLit.jstr "Hi!")] "T1").2.2
      (by show (exDB.messages.map msgKey).Nodup; decide) exEdits "t1" "msg-1"

end FakeDiscord
